import Mathlib

/-!
# Verification of the debuginfod-rs indexing and lookup engine

A shallow embedding, in Lean 4, of the core of `debuginfod-rs`
(`src/lib.rs`, with `src/main.rs` as the duplicated binary-side copy):
build-id parsing, the package-tree scan, the analyzer's `.build-id`
symlink extraction, the dwz build-id probe, the CPIO payload reader and
its compression dispatch, the index builder, and the executable lookup.
Strings are modelled as `List Char`, byte buffers as `List Nat`
(each element `< 256` where it matters), and Rust `HashMap`s as
association lists with replace-on-insert semantics.  Rust panics
(`unwrap` on `None`/`Err`) are modelled as the `.error` branch of
`Except`, so that "the code does not fail fatally" is expressible.
-/

/-! ## Byte-level hex, modelling the `hex` crate's `decode` -/

/-- Value of one hex digit, as in the `hex` crate: `0-9`, `a-f`, `A-F`. -/
def hexVal (c : Char) : Option Nat :=
  let n := c.toNat
  if 48 ≤ n ∧ n ≤ 57 then some (n - 48)
  else if 97 ≤ n ∧ n ≤ 102 then some (n - 97 + 10)
  else if 65 ≤ n ∧ n ≤ 70 then some (n - 65 + 10)
  else none

/-- `hex::decode`: consume the characters in pairs, high nibble first;
`none` on an odd-length input or any non-hex character. -/
def hexDecode : List Char → Option (List Nat)
  | [] => some []
  | [_] => none
  | c1 :: c2 :: rest =>
    match hexVal c1, hexVal c2, hexDecode rest with
    | some h, some l, some bs => some ((16 * h + l) :: bs)
    | _, _, _ => none

/-- Lowercase hex digit for a nibble value, `0-9a-f`. -/
def hexChar (n : Nat) : Char :=
  if n < 10 then Char.ofNat (48 + n) else Char.ofNat (97 + n - 10)

/-- One byte as two lowercase hex digits, high nibble first. -/
def byteToHex (b : Nat) : List Char :=
  [hexChar (b / 16), hexChar (b % 16)]

/-- The spec's textual form of a build-id: lowercase hex of the bytes. -/
def lowercaseHex (bs : List Nat) : List Char :=
  (bs.map byteToHex).flatten

/-- `BUILD_CHARS`: a build-id is 20 bytes. -/
def BUILD_CHARS : Nat := 20

/-- `Server::parse_build_id` (lib.rs:380): `hex::decode`, then reject any
decoded length other than `BUILD_CHARS`. -/
def parse_build_id (s : List Char) : Except String (List Nat) :=
  match hexDecode s with
  | none => .error "hex decode failed"
  | some array =>
    if array.length = BUILD_CHARS then .ok array
    else .error "Invalid build-id length"

/-- Uppercase a subset of the characters, the subset given as a mask. -/
def upperize : List Bool → List Char → List Char
  | _, [] => []
  | [], cs => cs
  | b :: ms, c :: cs => (if b then c.toUpper else c) :: upperize ms cs

theorem hexVal_hexChar : ∀ n < 16, hexVal (hexChar n) = some n := by
  decide

theorem hexVal_hexChar_upper : ∀ n < 16, hexVal (hexChar n).toUpper = some n := by
  decide

theorem upperize_nil (cs : List Char) : upperize [] cs = cs := by
  cases cs <;> rfl

theorem hexDecode_byte_cons (b : Nat) (hb : b < 256) (cs : List Char) :
    hexDecode (byteToHex b ++ cs) = (hexDecode cs).map (fun bs => b :: bs) := by
  have h1 : b / 16 < 16 := by omega
  have h2 : b % 16 < 16 := by omega
  have hb16 : 16 * (b / 16) + b % 16 = b := by omega
  cases h3 : hexDecode cs with
  | none =>
    simp only [byteToHex, List.cons_append, List.nil_append, hexDecode,
      List.append_eq, hexVal_hexChar _ h1, hexVal_hexChar _ h2, h3, Option.map_none']
  | some bs =>
    simp only [byteToHex, List.cons_append, List.nil_append, hexDecode,
      List.append_eq, hexVal_hexChar _ h1, hexVal_hexChar _ h2, h3, Option.map_some', hb16]

theorem hexDecode_lowercaseHex (bs : List Nat) (h : ∀ b ∈ bs, b < 256) :
    hexDecode (lowercaseHex bs) = some bs := by
  induction bs with
  | nil => rfl
  | cons b rest ih =>
    have hb : b < 256 := h b (by simp)
    have : lowercaseHex (b :: rest) = byteToHex b ++ lowercaseHex rest := by
      simp [lowercaseHex]
    rw [this, hexDecode_byte_cons b hb, ih (fun x hx => h x (by simp [hx]))]
    rfl

theorem hexDecode_badchar : ∀ (l : List Char) (c : Char), c ∈ l → hexVal c = none →
    hexDecode l = none
  | [], c, hc, _ => absurd hc (by simp)
  | [_], _, _, _ => rfl
  | c1 :: c2 :: rest, c, hc, hv => by
    rcases List.mem_cons.mp hc with h | h
    · subst h
      simp only [hexDecode, hv]
    · rcases List.mem_cons.mp h with h | h
      · subst h
        simp only [hexDecode, hv]
        cases hexVal c1 <;> rfl
      · have ihr := hexDecode_badchar rest c h hv
        simp only [hexDecode, ihr]
        cases hexVal c1 <;> cases hexVal c2 <;> rfl

theorem hexDecode_lowercaseHex_cons (b : Nat) (rest : List Nat) :
    lowercaseHex (b :: rest) =
      hexChar (b / 16) :: hexChar (b % 16) :: lowercaseHex rest := by
  simp [lowercaseHex, byteToHex]

theorem hexVal_maybeUpper (m : Bool) (n : Nat) (h : n < 16) :
    hexVal (if m then (hexChar n).toUpper else hexChar n) = some n := by
  cases m with
  | false => simpa using hexVal_hexChar n h
  | true => simpa using hexVal_hexChar_upper n h

theorem hexDecode_upperize (bs : List Nat) : ∀ (mask : List Bool),
    (∀ b ∈ bs, b < 256) →
    hexDecode (upperize mask (lowercaseHex bs)) = some bs := by
  induction bs with
  | nil => intro mask _; cases mask <;> rfl
  | cons b rest ih =>
    intro mask h
    have hb : b < 256 := h b (by simp)
    have h1 : b / 16 < 16 := by omega
    have h2 : b % 16 < 16 := by omega
    have hb16 : 16 * (b / 16) + b % 16 = b := by omega
    have hrest : ∀ x ∈ rest, x < 256 := fun x hx => h x (by simp [hx])
    rw [hexDecode_lowercaseHex_cons]
    match mask with
    | [] =>
      rw [upperize_nil, ← hexDecode_lowercaseHex_cons]
      exact hexDecode_lowercaseHex (b :: rest) h
    | [m] =>
      simp only [upperize, upperize_nil, hexDecode, hexVal_maybeUpper m _ h1,
        hexVal_hexChar _ h2, hexDecode_lowercaseHex rest hrest, hb16]
    | m1 :: m2 :: ms =>
      simp only [upperize, hexDecode, hexVal_maybeUpper m1 _ h1,
        hexVal_maybeUpper m2 _ h2, ih ms hrest, hb16]

/-- **C6**: `parse_build_id` round-trips on the lowercase-hex form of any
20-byte id, rejects any input containing a non-hex character, and rejects
any hex input whose decoded byte length is not exactly 20. -/
theorem C6_parse_build_id_strict :
    (∀ id : List Nat, id.length = 20 → (∀ b ∈ id, b < 256) →
      parse_build_id (lowercaseHex id) = .ok id)
    ∧ (∀ (s : List Char) (c : Char), c ∈ s → hexVal c = none →
      ∃ e, parse_build_id s = .error e)
    ∧ (∀ (s : List Char) (bs : List Nat), hexDecode s = some bs → bs.length ≠ 20 →
      ∃ e, parse_build_id s = .error e) := by
  refine ⟨?_, ?_, ?_⟩
  · intro id hlen hbytes
    simp [parse_build_id, hexDecode_lowercaseHex id hbytes, hlen, BUILD_CHARS]
  · intro s c hc hv
    exact ⟨"hex decode failed", by simp [parse_build_id, hexDecode_badchar s c hc hv]⟩
  · intro s bs hdec hlen
    exact ⟨"Invalid build-id length", by simp [parse_build_id, hdec, BUILD_CHARS, hlen]⟩

/-- Witness for C6 at concrete inputs: the all-`0xab` id round-trips, `"zz"`
is rejected as non-hex, and `"ab"` (1 decoded byte) is rejected as too
short. -/
theorem C6_parse_build_id_strict_witness :
    parse_build_id (lowercaseHex (List.replicate 20 171)) = .ok (List.replicate 20 171)
    ∧ (∃ e, parse_build_id ['z', 'z'] = .error e)
    ∧ (∃ e, parse_build_id ['a', 'b'] = .error e) :=
  ⟨C6_parse_build_id_strict.1 _ (by decide) (by decide),
   C6_parse_build_id_strict.2.1 ['z', 'z'] 'z' (by decide) (by decide),
   C6_parse_build_id_strict.2.2 ['a', 'b'] [171] (by decide) (by decide)⟩

/-- **C10**: `parse_build_id` is case-insensitive — uppercasing any subset
of the hex digits of the lowercase form still decodes to the same id. -/
theorem C10_parse_build_id_case_insensitive (id : List Nat) (mask : List Bool)
    (hlen : id.length = 20) (hbytes : ∀ b ∈ id, b < 256) :
    parse_build_id (upperize mask (lowercaseHex id)) = .ok id := by
  simp [parse_build_id, hexDecode_upperize id mask hbytes, hlen, BUILD_CHARS]

/-- Witness for C10: a mixed-case rendering of the all-`0xab` id parses to
the same 20 bytes. -/
theorem C10_parse_build_id_case_insensitive_witness :
    parse_build_id (upperize [true, false, true] (lowercaseHex (List.replicate 20 171)))
      = .ok (List.replicate 20 171) :=
  C10_parse_build_id_case_insensitive _ _ (by decide) (by decide)

/-! ## The CPIO payload reader (`Server::get_rpm_file_stream`, lib.rs:246) -/

/-- One entry of the decompressed CPIO (newc) payload of an RPM. -/
structure CpioEntry where
  name : List Char
  file_size : Nat
  data : List Nat
  deriving DecidableEq

/-- RPM payloads prefix entry names with `.`; the reader strips exactly one
leading `.` if present (lib.rs:272-275). -/
def normName : List Char → List Char
  | '.' :: rest => rest
  | n => n

/-- The entry-scan loop of `Server::get_rpm_file_stream` (lib.rs:266-286):
skip zero-size or selector-rejected entries; return the first match with
its normalized name; error at the trailer. -/
def cpioFind (sel : List Char → Bool) : List CpioEntry → Except String (CpioEntry × List Char)
  | [] => .error "file not found in the archive"
  | e :: rest =>
    let name := normName e.name
    if sel name ∧ 0 < e.file_size then .ok (e, name)
    else cpioFind sel rest

/-- The payload compression types of the `rpm` crate handled by the code. -/
inductive CompressionType
  | zstd
  | gzip
  | bzip2
  | xz
  | none
  deriving DecidableEq

/-- Modelled library primitive (spec §6): the header's payload-compressor
field parsed to a `CompressionType`; any other declared value is an error,
which `compressor?` at lib.rs:256 propagates. -/
def get_payload_compressor (declared : String) : Except String CompressionType :=
  if declared = "zstd" then .ok .zstd
  else if declared = "gzip" then .ok .gzip
  else if declared = "bzip2" then .ok .bzip2
  else if declared = "xz" then .ok .xz
  else if declared = "none" then .ok .none
  else .error "unsupported compression type"

/-- An RPM file as the payload reader sees it: the declared compressor
string in the header, the compression actually applied to the payload, and
the CPIO entries inside the compressed payload. -/
structure RpmPayloadFile where
  declared_compressor : String
  actual_compression : CompressionType
  entries : List CpioEntry

/-- Modelled library primitive (spec §6): running decompressor `c` over the
payload byte stream recovers the CPIO entries exactly when the payload was
compressed with `c`. -/
def decodeWith (c : CompressionType) (f : RpmPayloadFile) : Except String (List CpioEntry) :=
  if c = f.actual_compression then .ok f.entries else .error "decoder failed"

/-- `Server::get_rpm_file_stream` (lib.rs:246-286): parse the compressor
field, dispatch to the matching decompressor (each of the five declared
values selects its own decoder), then scan the CPIO entries. -/
def get_rpm_file_stream (f : RpmPayloadFile) (sel : List Char → Bool) :
    Except String (CpioEntry × List Char) := do
  let compressor ← get_payload_compressor f.declared_compressor
  let entries ← match compressor with
    | .zstd => decodeWith .zstd f
    | .gzip => decodeWith .gzip f
    | .bzip2 => decodeWith .bzip2 f
    | .xz => decodeWith .xz f
    | .none => decodeWith .none f
  cpioFind sel entries

/-- `Server::read_rpm_file` (lib.rs:343): stream the entry whose normalized
name equals `file` and return all its bytes, or `none`. -/
def read_rpm_file (f : RpmPayloadFile) (file : List Char) : Option (List Nat) :=
  match get_rpm_file_stream f (fun n => n == file) with
  | .ok (e, _) => some e.data
  | .error _ => Option.none

/-- The canonical header string declaring each supported compression. -/
def compressorName : CompressionType → String
  | .zstd => "zstd"
  | .gzip => "gzip"
  | .bzip2 => "bzip2"
  | .xz => "xz"
  | .none => "none"

/-- An RPM whose payload is compressed with `c` and whose header declares
exactly that. -/
def mkCompressed (c : CompressionType) (es : List CpioEntry) : RpmPayloadFile :=
  ⟨compressorName c, c, es⟩

theorem get_rpm_file_stream_mk (c : CompressionType) (es : List CpioEntry)
    (sel : List Char → Bool) :
    get_rpm_file_stream (mkCompressed c es) sel = cpioFind sel es := by
  cases c <;> rfl

/-- The lib.rs reader implements the claimed behavior: for each of the five
supported declared compressions it wraps the stream in the matching
decompressor and proceeds to the CPIO scan; any other declared value
fails; and reading a given file name out of otherwise-identical RPMs
compressed with different supported types yields identical bytes.  (The
duplicated reader in main.rs, the one behind the `debuginfo` route, does
not — see `C2_getDebugInfo_zstd_only`.) -/
theorem libStream_compression_dispatch :
    (∀ (c : CompressionType) (es : List CpioEntry) (sel : List Char → Bool),
      get_rpm_file_stream (mkCompressed c es) sel = cpioFind sel es)
    ∧ (∀ (f : RpmPayloadFile) (sel : List Char → Bool),
      (∀ c : CompressionType, f.declared_compressor ≠ compressorName c) →
      ∃ e, get_rpm_file_stream f sel = .error e)
    ∧ (∀ (c1 c2 : CompressionType) (es : List CpioEntry) (file : List Char),
      read_rpm_file (mkCompressed c1 es) file = read_rpm_file (mkCompressed c2 es) file) := by
  refine ⟨get_rpm_file_stream_mk, ?_, ?_⟩
  · intro f sel h
    refine ⟨"unsupported compression type", ?_⟩
    have hz := h .zstd
    have hg := h .gzip
    have hb := h .bzip2
    have hx := h .xz
    have hn := h .none
    simp only [compressorName] at hz hg hb hx hn
    simp only [get_rpm_file_stream, get_payload_compressor, if_neg hz, if_neg hg,
      if_neg hb, if_neg hx, if_neg hn]
    rfl
  · intro c1 c2 es file
    simp only [read_rpm_file, get_rpm_file_stream_mk]

/-- The lib.rs dispatch at concrete inputs: a one-entry archive read
through the gzip pipeline, a declared `lzma` compressor failing, and
byte-identical reads from a bzip2 and an xz copy of the same payload. -/
theorem libStream_compression_dispatch_witness :
    get_rpm_file_stream (mkCompressed .gzip [⟨['/', 'a'], 1, [7]⟩]) (fun _ => true)
      = cpioFind (fun _ => true) [⟨['/', 'a'], 1, [7]⟩]
    ∧ (∃ e, get_rpm_file_stream ⟨"lzma", .zstd, []⟩ (fun _ => true) = .error e)
    ∧ read_rpm_file (mkCompressed .bzip2 [⟨['/', 'a'], 1, [7]⟩]) ['/', 'a']
      = read_rpm_file (mkCompressed .xz [⟨['/', 'a'], 1, [7]⟩]) ['/', 'a'] :=
  ⟨libStream_compression_dispatch.1 .gzip _ _,
   libStream_compression_dispatch.2.1 _ _ (by intro c; cases c <;> decide),
   libStream_compression_dispatch.2.2 .bzip2 .xz _ _⟩

/-- The duplicated `get_rpm_file_stream` of main.rs:248-288 — the copy the
`debuginfo` route (getDebugInfo) actually calls: a failed compressor parse
or any compressor other than zstd returns `None` before the CPIO scan
(main.rs:260-263, marked `TODO: fix`); only a zstd payload is decoded,
the decoder `unwrap` (a panic on a non-zstd byte stream) modelled as
`.error`. -/
def get_rpm_file_stream_main (f : RpmPayloadFile) (sel : List Char → Bool) :
    Except String (Option (CpioEntry × List Char)) :=
  match get_payload_compressor f.declared_compressor with
  | .error _ => .ok Option.none
  | .ok c =>
    if c = CompressionType.zstd then
      match decodeWith CompressionType.zstd f with
      | .ok entries =>
        match cpioFind sel entries with
        | .ok r => .ok (some r)
        | .error _ => .ok Option.none
      | .error _ => .error "panicked at Result::unwrap on Err"
    else .ok Option.none

/-- The `read_rpm_file` of main.rs:321-331, built on the main.rs reader. -/
def read_rpm_file_main (f : RpmPayloadFile) (file : List Char) :
    Except String (Option (List Nat)) :=
  match get_rpm_file_stream_main f (fun n => n == file) with
  | .ok (some (e, _)) => .ok (some e.data)
  | .ok Option.none => .ok Option.none
  | .error e => .error e

/-- **C2 (code bug)**: the program's getDebugInfo goes through the main.rs
reader, which serves a zstd payload but returns nothing for the
otherwise-identical gzip, bzip2 and xz copies — the claimed five-way
dispatch exists only in the lib.rs copy, which does read the gzip copy
successfully (last conjunct). -/
theorem C2_getDebugInfo_zstd_only :
    read_rpm_file_main (mkCompressed .zstd [⟨['.', '/', 'a'], 1, [7]⟩]) ['/', 'a']
      = .ok (some [7])
    ∧ read_rpm_file_main (mkCompressed .gzip [⟨['.', '/', 'a'], 1, [7]⟩]) ['/', 'a']
      = .ok Option.none
    ∧ read_rpm_file_main (mkCompressed .bzip2 [⟨['.', '/', 'a'], 1, [7]⟩]) ['/', 'a']
      = .ok Option.none
    ∧ read_rpm_file_main (mkCompressed .xz [⟨['.', '/', 'a'], 1, [7]⟩]) ['/', 'a']
      = .ok Option.none
    ∧ read_rpm_file (mkCompressed .gzip [⟨['.', '/', 'a'], 1, [7]⟩]) ['/', 'a']
      = some [7] := by
  refine ⟨rfl, rfl, rfl, rfl, rfl⟩

theorem cpioFind_ok_char (sel : List Char → Bool) (es : List CpioEntry) :
    ∀ (e : CpioEntry) (n : List Char),
      cpioFind sel es = .ok (e, n) →
      n = normName e.name ∧ sel n = true ∧ 0 < e.file_size ∧
      ∃ pre post, es = pre ++ e :: post ∧
        ∀ e' ∈ pre, ¬(sel (normName e'.name) = true ∧ 0 < e'.file_size) := by
  induction es with
  | nil =>
    intro e n h
    exact absurd h (by simp [cpioFind])
  | cons e0 rest ih =>
    intro e n h
    simp only [cpioFind] at h
    by_cases hm : sel (normName e0.name) = true ∧ 0 < e0.file_size
    · rw [if_pos hm] at h
      simp only [Except.ok.injEq, Prod.mk.injEq] at h
      obtain ⟨he, hn⟩ := h
      subst he
      subst hn
      exact ⟨rfl, hm.1, hm.2, [], rest, rfl, by simp⟩
    · rw [if_neg hm] at h
      obtain ⟨p1, p2, p3, pre, post, heq, hpre⟩ := ih e n h
      refine ⟨p1, p2, p3, e0 :: pre, post, by rw [heq]; rfl, ?_⟩
      intro e' he'
      rcases List.mem_cons.mp he' with h1 | h1
      · subst h1; exact hm
      · exact hpre e' h1

theorem cpioFind_error_iff (sel : List Char → Bool) (es : List CpioEntry) :
    (∃ err, cpioFind sel es = .error err) ↔
      ∀ e ∈ es, ¬(sel (normName e.name) = true ∧ 0 < e.file_size) := by
  induction es with
  | nil => simp [cpioFind]
  | cons e0 rest ih =>
    by_cases hm : sel (normName e0.name) = true ∧ 0 < e0.file_size
    · simp only [cpioFind, if_pos hm]
      constructor
      · rintro ⟨err, h⟩
        cases h
      · intro h
        exact absurd hm (h e0 (by simp))
    · simp only [cpioFind, if_neg hm]
      constructor
      · rintro ⟨err, h⟩ e he
        rcases List.mem_cons.mp he with h1 | h1
        · subst h1; exact hm
        · exact (ih.mp ⟨err, h⟩) e h1
      · intro h
        exact ih.mpr (fun e he => h e (by simp [he]))

/-- **C9**: the payload scan normalizes names by stripping one leading `.`,
returns the first entry whose normalized name the selector accepts and
whose size is non-zero (with that normalized name), and reaches the
not-found error exactly when no entry matches — so zero-size entries are
never returned. -/
theorem C9_payload_scan (sel : List Char → Bool) (es : List CpioEntry) :
    (∀ (e : CpioEntry) (n : List Char),
      cpioFind sel es = .ok (e, n) →
      n = normName e.name ∧ sel n = true ∧ 0 < e.file_size ∧
      ∃ pre post, es = pre ++ e :: post ∧
        ∀ e' ∈ pre, ¬(sel (normName e'.name) = true ∧ 0 < e'.file_size))
    ∧ ((∃ err, cpioFind sel es = .error err) ↔
      ∀ e ∈ es, ¬(sel (normName e.name) = true ∧ 0 < e.file_size)) :=
  ⟨cpioFind_ok_char sel es, cpioFind_error_iff sel es⟩

/-- Witness for C9: a zero-size entry named `./a` is skipped in favour of a
later two-byte entry of the same name, and an archive holding only the
zero-size entry yields not-found even though the name matches. -/
theorem C9_payload_scan_witness :
    (['/', 'a'] = normName ['.', '/', 'a']
      ∧ (fun n => n == ['/', 'a']) ['/', 'a'] = true
      ∧ 0 < (⟨['.', '/', 'a'], 2, [1, 2]⟩ : CpioEntry).file_size
      ∧ ∃ pre post,
          [(⟨['.', '/', 'a'], 0, []⟩ : CpioEntry), ⟨['.', '/', 'a'], 2, [1, 2]⟩]
            = pre ++ (⟨['.', '/', 'a'], 2, [1, 2]⟩ : CpioEntry) :: post
          ∧ ∀ e' ∈ pre,
              ¬((fun n => n == ['/', 'a']) (normName e'.name) = true ∧ 0 < e'.file_size))
    ∧ (∃ err,
        cpioFind (fun n => n == ['/', 'a']) [⟨['.', '/', 'a'], 0, []⟩] = .error err) := by
  refine ⟨(C9_payload_scan (fun n => n == ['/', 'a'])
      [⟨['.', '/', 'a'], 0, []⟩, ⟨['.', '/', 'a'], 2, [1, 2]⟩]).1
      ⟨['.', '/', 'a'], 2, [1, 2]⟩ ['/', 'a'] (by rfl),
    (C9_payload_scan (fun n => n == ['/', 'a']) [⟨['.', '/', 'a'], 0, []⟩]).2.mpr ?_⟩
  decide

/-! ## The dwz build-id probe (`Server::get_build_id_for_dwz`, lib.rs:288) -/

/-- `BUILD_ID_ELF_PREFIX` in the source: the 8-byte tail of the ELF
SHT_NOTE header that identifies a GNU build-id note. -/
def BUILD_ID_ELF_MAGIC : List Nat := [3, 0, 0, 0, 71, 78, 85, 0]

/-- The sliding scan loop of lib.rs:301-319: for the given number of
offsets, if the haystack starts with the signature take the 20 bytes after
it (`BuildId::try_from` fails — `break`, hence `None` — when fewer than 20
remain), otherwise shift the haystack by one byte. -/
def dwzScan : Nat → List Nat → Option (List Nat)
  | 0, _ => Option.none
  | n + 1, hay =>
    if BUILD_ID_ELF_MAGIC.isPrefixOf hay then
      let bid := (hay.drop BUILD_ID_ELF_MAGIC.length).take BUILD_CHARS
      if bid.length = BUILD_CHARS then some bid else Option.none
    else dwzScan n (hay.drop 1)

/-- The 256-byte window: `vec![0; 256]` filled by `read_exact` from the
entry's bytes, the `Err` of a short read being discarded (lib.rs:298-299),
so a short entry leaves the zero tail in place. -/
def dwzBuffer (bytes : List Nat) : List Nat :=
  bytes.take 256 ++ List.replicate (256 - bytes.length) 0

/-- The probe's scan over the window, with the loop bound
`data.len() - BUILD_ID_ELF_MAGIC.len() - BUILD_CHARS` of lib.rs:301. -/
def get_build_id_for_dwz_scan (bytes : List Nat) : Option (List Nat) :=
  let data := dwzBuffer bytes
  dwzScan (data.length - BUILD_ID_ELF_MAGIC.length - BUILD_CHARS) data

/-- The signature occurs at offset `i` of `data`. -/
abbrev sigAt (data : List Nat) (i : Nat) : Prop :=
  BUILD_ID_ELF_MAGIC.isPrefixOf (data.drop i) = true

theorem dwzBuffer_length (bytes : List Nat) : (dwzBuffer bytes).length = 256 := by
  simp only [dwzBuffer, List.length_append, List.length_take, List.length_replicate]
  omega

theorem dwzScan_none (n : Nat) :
    ∀ hay : List Nat, (∀ i < n, ¬ BUILD_ID_ELF_MAGIC.isPrefixOf (hay.drop i) = true) →
    dwzScan n hay = Option.none := by
  induction n with
  | zero => intro hay _; rfl
  | succ n ih =>
    intro hay h
    have h0 := h 0 (by omega)
    simp only [List.drop_zero] at h0
    rw [dwzScan, if_neg h0]
    refine ih (hay.drop 1) (fun i hi => ?_)
    have := h (i + 1) (by omega)
    simpa [List.drop_drop] using this

theorem dwzScan_found (n : Nat) :
    ∀ (hay : List Nat) (i : Nat), i < n →
    BUILD_ID_ELF_MAGIC.isPrefixOf (hay.drop i) = true →
    (∀ j < i, ¬ BUILD_ID_ELF_MAGIC.isPrefixOf (hay.drop j) = true) →
    28 ≤ (hay.drop i).length →
    dwzScan n hay = some (((hay.drop i).drop 8).take 20) := by
  induction n with
  | zero => omega
  | succ n ih =>
    intro hay i hi hsig hfirst hlen
    cases i with
    | zero =>
      simp only [List.drop_zero] at hsig hlen
      rw [dwzScan, if_pos hsig]
      have hl : ((hay.drop BUILD_ID_ELF_MAGIC.length).take BUILD_CHARS).length
          = BUILD_CHARS := by
        simp only [List.length_take, List.length_drop, BUILD_ID_ELF_MAGIC, BUILD_CHARS]
        simp only [List.length_cons, List.length_nil]
        omega
      simp only [hl, if_pos rfl, List.drop_zero]
      rfl
    | succ i' =>
      have h0 : ¬ BUILD_ID_ELF_MAGIC.isPrefixOf (hay.drop 0) = true :=
        hfirst 0 (by omega)
      simp only [List.drop_zero] at h0
      rw [dwzScan, if_neg h0]
      have hdd : ∀ k : Nat, (hay.drop 1).drop k = hay.drop (k + 1) := by
        intro k; rw [List.drop_drop, Nat.add_comm]
      rw [ih (hay.drop 1) i' (by omega) (by rw [hdd]; exact hsig)
        (fun j hj => by rw [hdd]; exact hfirst (j + 1) (by omega))
        (by rw [hdd]; exact hlen), hdd]

/-- **C7 (amended)**: over the 256-byte window, the probe returns the 20
bytes following the signature whenever the signature first occurs at an
offset strictly below `256 - 8 - 20 = 228`, and returns nothing when no
offset below 228 carries the signature.  (The claim's "any position such
that 20 bytes follow" admits offset 228, which the loop bound excludes —
see the counterexample.) -/
theorem C7_dwz_probe_amended (bytes : List Nat) :
    ((∀ i < 228, ¬ sigAt (dwzBuffer bytes) i) →
      get_build_id_for_dwz_scan bytes = Option.none)
    ∧ (∀ i, i < 228 → sigAt (dwzBuffer bytes) i →
      (∀ j < i, ¬ sigAt (dwzBuffer bytes) j) →
      get_build_id_for_dwz_scan bytes
        = some ((((dwzBuffer bytes).drop i).drop 8).take 20)) := by
  have hlen : (dwzBuffer bytes).length = 256 := dwzBuffer_length bytes
  have hbound : (dwzBuffer bytes).length - BUILD_ID_ELF_MAGIC.length - BUILD_CHARS
      = 228 := by rw [hlen]; rfl
  constructor
  · intro h
    simp only [get_build_id_for_dwz_scan, hbound]
    exact dwzScan_none 228 (dwzBuffer bytes) h
  · intro i hi hsig hfirst
    simp only [get_build_id_for_dwz_scan, hbound]
    refine dwzScan_found 228 (dwzBuffer bytes) i hi hsig hfirst ?_
    rw [List.length_drop, hlen]
    omega

set_option maxRecDepth 4000 in
/-- Witness for the amended C7: an all-zero window yields nothing, and a
window starting with the signature followed by twenty `7` bytes yields
exactly those bytes. -/
theorem C7_dwz_probe_amended_witness :
    get_build_id_for_dwz_scan (List.replicate 256 0) = Option.none
    ∧ get_build_id_for_dwz_scan
        (BUILD_ID_ELF_MAGIC ++ (List.replicate 20 7 ++ List.replicate 228 0))
      = some ((((dwzBuffer
          (BUILD_ID_ELF_MAGIC ++ (List.replicate 20 7 ++ List.replicate 228 0))).drop
            0).drop 8).take 20) :=
  ⟨(C7_dwz_probe_amended (List.replicate 256 0)).1 (by decide),
   (C7_dwz_probe_amended
      (BUILD_ID_ELF_MAGIC ++ (List.replicate 20 7 ++ List.replicate 228 0))).2
      0 (by omega) (by decide) (fun j hj => absurd hj (Nat.not_lt_zero j))⟩

set_option maxRecDepth 4000 in
/-- Counterexample to C7 as stated: the signature sits at offset 228 of the
256-byte window, its 20 id bytes fit entirely inside the window, yet the
probe returns nothing because the loop stops after 228 shifts. -/
theorem C7_dwz_probe_counterexample :
    sigAt (dwzBuffer (List.replicate 228 0 ++ (BUILD_ID_ELF_MAGIC ++ List.replicate 20 5)))
      228
    ∧ 228 + BUILD_ID_ELF_MAGIC.length + BUILD_CHARS
      ≤ (dwzBuffer (List.replicate 228 0 ++ (BUILD_ID_ELF_MAGIC ++ List.replicate 20 5))).length
    ∧ get_build_id_for_dwz_scan
        (List.replicate 228 0 ++ (BUILD_ID_ELF_MAGIC ++ List.replicate 20 5))
      = Option.none := by
  refine ⟨by decide, by decide, by decide⟩

/-! ## The package-tree scan (`Server::walk`, lib.rs:76-101) -/

/-- Metadata of a directory entry, as `DirEntry::metadata` reports it. -/
structure FsMeta where
  is_file : Bool
  len : Nat
  deriving DecidableEq

deriving instance DecidableEq for Except

/-- One item yielded by the recursive walk: the metadata lookup result (an
I/O error for unreadable metadata), the path's UTF-8 rendering (`none` for
a non-UTF-8 path), and the path's extension. -/
structure DirEntry where
  meta : Except String FsMeta
  pathStr : Option String
  ext : Option String
  deriving DecidableEq

/-- The collection loop of `Server::walk` (lib.rs:78-91): `WalkDir` yields
`Result` items and the code calls `entry.unwrap()` and then
`entry.metadata().unwrap()` — both modelled as `.error` (panic) — before
collecting files with extension `rpm`; a path that is not valid UTF-8 is
logged and skipped. -/
def walkCollect : List (Except String DirEntry) → Except String (List String)
  | [] => .ok []
  | .error e :: _ => .error ("panic: " ++ e)
  | .ok d :: rest =>
    match d.meta with
    | .error e => .error ("panic: " ++ e)
    | .ok m =>
      if m.is_file ∧ d.ext = some "rpm" then
        match d.pathStr with
        | some p => (walkCollect rest).map (fun l => p :: l)
        | Option.none => walkCollect rest
      else walkCollect rest

/-- **C3 (code bug)**: the walk panics — it does not warn and skip — when
any entry has unreadable metadata or the iterator yields an error, while a
non-UTF-8 path is indeed skipped with only the readable `.rpm` files
returned. -/
theorem C3_walk_panics_on_unreadable_metadata :
    walkCollect [.ok ⟨.ok ⟨true, 10⟩, some "/r/a.rpm", some "rpm"⟩,
        .ok ⟨.error "Permission denied", Option.none, Option.none⟩]
      = .error "panic: Permission denied"
    ∧ walkCollect [.error "dir unreadable"] = .error "panic: dir unreadable"
    ∧ walkCollect [.ok ⟨.ok ⟨true, 10⟩, some "/r/a.rpm", some "rpm"⟩,
        .ok ⟨.ok ⟨true, 5⟩, Option.none, some "rpm"⟩]
      = .ok ["/r/a.rpm"] :=
  ⟨rfl, rfl, rfl⟩

/-! ## The index builder (`Server::walk`, lib.rs:118-156) -/

/-- `HashMap::insert`: replace the binding if the key is present, else
append it. -/
def insertA {κ β : Type} [DecidableEq κ] (k : κ) (v : β) : List (κ × β) → List (κ × β)
  | [] => [(k, v)]
  | (k', v') :: rest => if k' = k then (k, v) :: rest else (k', v') :: insertA k v rest

/-- `HashMap` lookup over the association-list model. -/
def lookupA {κ β : Type} [DecidableEq κ] (k : κ) : List (κ × β) → Option β
  | [] => Option.none
  | (k', v) :: rest => if k' = k then some v else lookupA k rest

/-- `RPMKind` (lib.rs:32), with the `DebugInfo` build-id map as an
association list from 20-byte ids to payload paths. -/
inductive RPMKind
  | Binary
  | DebugInfo (build_ids : List (List Nat × String))
  | DebugSource
  deriving DecidableEq

/-- `RPMFile` (lib.rs:39). -/
structure RPMFile where
  arch : String
  source_rpm : String
  name : String
  path : String
  kind : RPMKind
  deriving DecidableEq

/-- `DebugInfoRPM` (lib.rs:49). -/
structure DebugInfoRPM where
  rpm_path : String
  binary_rpm_path : Option String
  source_rpm : Option String
  build_id_to_path : List (List Nat × String)
  deriving DecidableEq

/-- The record list and build-id index of `Server` (lib.rs:58). -/
structure IndexState where
  debug_info_rpms : List DebugInfoRPM
  build_ids : List (List Nat × DebugInfoRPM)
  deriving DecidableEq

/-- The first correlation loop (lib.rs:120-125): `(arch, sourceRpm)` to the
debug-source package, later packages overwriting earlier ones. -/
def source_rpm_map (rpms : List RPMFile) : List ((String × String) × RPMFile) :=
  rpms.foldl (fun m rpm =>
    match rpm.kind with
    | .DebugSource => insertA (rpm.arch, rpm.source_rpm) rpm m
    | _ => m) []

/-- The second correlation loop (lib.rs:129-134): `(arch, sourceRpm,
canonicalName)` to the binary package. -/
def binary_rpm_map (rpms : List RPMFile) :
    List ((String × String × String) × RPMFile) :=
  rpms.foldl (fun m rpm =>
    match rpm.kind with
    | .Binary => insertA (rpm.arch, rpm.source_rpm, rpm.name) rpm m
    | _ => m) []

/-- The `DebugInfoRPM` record construction of lib.rs:139-148. -/
def mkDebugInfoRPM (srcMap : List ((String × String) × RPMFile))
    (binMap : List ((String × String × String) × RPMFile))
    (rpm : RPMFile) (build_ids : List (List Nat × String)) : DebugInfoRPM :=
  { rpm_path := rpm.path
    binary_rpm_path :=
      (lookupA (rpm.arch, rpm.source_rpm, rpm.name) binMap).map (fun r => r.path)
    source_rpm := (lookupA (rpm.arch, rpm.source_rpm) srcMap).map (fun r => r.path)
    build_id_to_path := build_ids }

/-- One iteration of the third loop (lib.rs:137-156): push the record and
insert every one of its build-ids, all mapping to this record. -/
def indexStep (srcMap : List ((String × String) × RPMFile))
    (binMap : List ((String × String × String) × RPMFile))
    (st : IndexState) (rpm : RPMFile) : IndexState :=
  match rpm.kind with
  | .DebugInfo build_ids =>
    let debug_info := mkDebugInfoRPM srcMap binMap rpm build_ids
    { debug_info_rpms := st.debug_info_rpms ++ [debug_info]
      build_ids := (build_ids.map Prod.fst).foldl
        (fun m k => insertA k debug_info m) st.build_ids }
  | _ => st

/-- The whole index build over the bag of analyzed packages. -/
def indexBuild (rpms : List RPMFile) : IndexState :=
  rpms.foldl (indexStep (source_rpm_map rpms) (binary_rpm_map rpms)) ⟨[], []⟩

theorem lookupA_insertA {κ β : Type} [DecidableEq κ] (k k' : κ) (v : β) :
    ∀ m : List (κ × β),
      lookupA k' (insertA k v m) = if k = k' then some v else lookupA k' m := by
  intro m
  induction m with
  | nil => simp [insertA, lookupA]
  | cons kv rest ih =>
    obtain ⟨k0, v0⟩ := kv
    by_cases h0 : k0 = k
    · subst h0
      simp only [insertA, if_pos rfl, lookupA]
      by_cases h1 : k0 = k'
      · subst h1; simp
      · simp [h1]
    · simp only [insertA, if_neg h0, lookupA]
      by_cases h1 : k0 = k'
      · subst h1
        rw [if_pos rfl, if_pos rfl]
        have : ¬ k = k0 := fun he => h0 he.symm
        rw [if_neg this]
      · rw [if_neg h1, if_neg h1, ih]

theorem lookupA_insertKeys {κ β : Type} [DecidableEq κ] (v : β) (k' : κ) :
    ∀ (ks : List κ) (m : List (κ × β)),
      lookupA k' (ks.foldl (fun m k => insertA k v m) m)
        = if k' ∈ ks then some v else lookupA k' m := by
  intro ks
  induction ks with
  | nil => intro m; simp
  | cons k ks ih =>
    intro m
    simp only [List.foldl_cons, ih (insertA k v m), lookupA_insertA]
    by_cases h1 : k' ∈ ks
    · simp [h1]
    · rw [if_neg h1]
      by_cases h2 : k = k'
      · subst h2; simp
      · have hnot : ¬ k' ∈ k :: ks := by
          rw [List.mem_cons]
          rintro (he | he)
          · exact h2 he.symm
          · exact h1 he
        rw [if_neg h2, if_neg hnot]

theorem indexFold_lookup_sound (srcMap : List ((String × String) × RPMFile))
    (binMap : List ((String × String × String) × RPMFile)) :
    ∀ (rpms : List RPMFile) (st : IndexState),
      (∀ (k : List Nat) (R : DebugInfoRPM), lookupA k st.build_ids = some R →
        R ∈ st.debug_info_rpms ∧ k ∈ R.build_id_to_path.map Prod.fst) →
      ∀ (k : List Nat) (R : DebugInfoRPM),
        lookupA k (rpms.foldl (indexStep srcMap binMap) st).build_ids = some R →
        R ∈ (rpms.foldl (indexStep srcMap binMap) st).debug_info_rpms
          ∧ k ∈ R.build_id_to_path.map Prod.fst := by
  intro rpms
  induction rpms with
  | nil => intro st hst; exact hst
  | cons rpm rest ih =>
    intro st hst
    simp only [List.foldl_cons]
    refine ih (indexStep srcMap binMap st rpm) ?_
    intro k R hR
    match hk : rpm.kind with
    | .Binary | .DebugSource =>
      rw [indexStep, hk] at hR ⊢
      exact hst k R hR
    | .DebugInfo build_ids =>
      rw [indexStep, hk] at hR ⊢
      simp only [lookupA_insertKeys] at hR
      by_cases hmem : k ∈ build_ids.map Prod.fst
      · rw [if_pos hmem] at hR
        cases hR
        exact ⟨by simp, hmem⟩
      · rw [if_neg hmem] at hR
        obtain ⟨h1, h2⟩ := hst k R hR
        exact ⟨by simp [h1], h2⟩

/-- **C5**: every build-id K in the index maps to a record that itself
advertises K in its `build_id_to_path`, and that record is an element of
the record list — for every input bag of analyzed packages. -/
theorem C5_index_entries_sound (rpms : List RPMFile) (k : List Nat)
    (R : DebugInfoRPM) (h : lookupA k (indexBuild rpms).build_ids = some R) :
    R ∈ (indexBuild rpms).debug_info_rpms
      ∧ k ∈ R.build_id_to_path.map Prod.fst :=
  indexFold_lookup_sound (source_rpm_map rpms) (binary_rpm_map rpms) rpms
    ⟨[], []⟩ (fun _ _ hR => absurd hR (by simp [lookupA])) k R h

/-- Witness for C5: a one-package bag whose sole record advertises the
all-`1` build-id. -/
theorem C5_index_entries_sound_witness :
    (⟨"a.rpm", Option.none, Option.none,
        [(List.replicate 20 1, "/usr/lib/debug/usr/bin/hello.debug")]⟩ : DebugInfoRPM)
      ∈ (indexBuild [⟨"x86_64", "s.src.rpm", "hello", "a.rpm",
          .DebugInfo [(List.replicate 20 1, "/usr/lib/debug/usr/bin/hello.debug")]⟩]).debug_info_rpms
    ∧ List.replicate 20 1
      ∈ (⟨"a.rpm", Option.none, Option.none,
          [(List.replicate 20 1, "/usr/lib/debug/usr/bin/hello.debug")]⟩
            : DebugInfoRPM).build_id_to_path.map Prod.fst :=
  C5_index_entries_sound
    [⟨"x86_64", "s.src.rpm", "hello", "a.rpm",
      .DebugInfo [(List.replicate 20 1, "/usr/lib/debug/usr/bin/hello.debug")]⟩]
    (List.replicate 20 1) _ (by decide)

theorem indexFold_lookup_complete (srcMap : List ((String × String) × RPMFile))
    (binMap : List ((String × String × String) × RPMFile)) :
    ∀ (rpms : List RPMFile) (st : IndexState),
      (∀ (R : DebugInfoRPM) (k : List Nat),
        R ∈ st.debug_info_rpms → k ∈ R.build_id_to_path.map Prod.fst →
        (∀ R' ∈ st.debug_info_rpms, k ∈ R'.build_id_to_path.map Prod.fst → R' = R) →
        lookupA k st.build_ids = some R) →
      ∀ (R : DebugInfoRPM) (k : List Nat),
        R ∈ (rpms.foldl (indexStep srcMap binMap) st).debug_info_rpms →
        k ∈ R.build_id_to_path.map Prod.fst →
        (∀ R' ∈ (rpms.foldl (indexStep srcMap binMap) st).debug_info_rpms,
          k ∈ R'.build_id_to_path.map Prod.fst → R' = R) →
        lookupA k (rpms.foldl (indexStep srcMap binMap) st).build_ids = some R := by
  intro rpms
  induction rpms with
  | nil => intro st hst; exact hst
  | cons rpm rest ih =>
    intro st hst
    simp only [List.foldl_cons]
    refine ih (indexStep srcMap binMap st rpm) ?_
    intro R k hR hk huniq
    match hkind : rpm.kind with
    | .Binary | .DebugSource =>
      rw [indexStep, hkind] at hR huniq ⊢
      exact hst R k hR hk huniq
    | .DebugInfo build_ids =>
      simp only [indexStep, hkind] at hR huniq ⊢
      simp only [lookupA_insertKeys]
      by_cases hmem : k ∈ build_ids.map Prod.fst
      · rw [if_pos hmem]
        have heq : mkDebugInfoRPM srcMap binMap rpm build_ids = R := by
          refine huniq _ (by simp) ?_
          simpa [mkDebugInfoRPM] using hmem
        rw [heq]
      · rw [if_neg hmem]
        have hRold : R ∈ st.debug_info_rpms := by
          rcases List.mem_append.mp hR with h | h
          · exact h
          · exfalso
            have hre : R = mkDebugInfoRPM srcMap binMap rpm build_ids := by simpa using h
            subst hre
            exact hmem (by simpa [mkDebugInfoRPM] using hk)
        refine hst R k hRold hk ?_
        intro R' hR' hk'
        exact huniq R' (List.mem_append.mpr (Or.inl hR')) hk'

/-- **C4 (amended)**: a record's build-id K resolves back to that record
whenever it is the only record in the list advertising K; when several
records advertise the same K, `byBuildId[K]` is the record of the last such
package in analysis order, so the claim's unconditional form fails (see
the counterexample). -/
theorem C4_unique_buildid_maps_to_advertiser (rpms : List RPMFile)
    (R : DebugInfoRPM) (k : List Nat)
    (hR : R ∈ (indexBuild rpms).debug_info_rpms)
    (hk : k ∈ R.build_id_to_path.map Prod.fst)
    (huniq : ∀ R' ∈ (indexBuild rpms).debug_info_rpms,
      k ∈ R'.build_id_to_path.map Prod.fst → R' = R) :
    lookupA k (indexBuild rpms).build_ids = some R :=
  indexFold_lookup_complete (source_rpm_map rpms) (binary_rpm_map rpms) rpms
    ⟨[], []⟩ (fun _ _ hmem _ _ => absurd hmem (by simp)) R k hR hk huniq

/-- Witness for the amended C4: in a one-package bag the sole record's
build-id resolves back to it. -/
theorem C4_unique_buildid_maps_to_advertiser_witness :
    lookupA (List.replicate 20 1)
        (indexBuild [⟨"x86_64", "s.src.rpm", "hello", "a.rpm",
          .DebugInfo [(List.replicate 20 1, "/usr/lib/debug/usr/bin/hello.debug")]⟩]).build_ids
      = some ⟨"a.rpm", Option.none, Option.none,
          [(List.replicate 20 1, "/usr/lib/debug/usr/bin/hello.debug")]⟩ :=
  C4_unique_buildid_maps_to_advertiser
    [⟨"x86_64", "s.src.rpm", "hello", "a.rpm",
      .DebugInfo [(List.replicate 20 1, "/usr/lib/debug/usr/bin/hello.debug")]⟩]
    ⟨"a.rpm", Option.none, Option.none,
      [(List.replicate 20 1, "/usr/lib/debug/usr/bin/hello.debug")]⟩
    (List.replicate 20 1) (by decide) (by decide) (by decide)

/-- Counterexample to C4 as stated: two debuginfo packages advertise the
same build-id; the first record is in the list and advertises the id, yet
the index maps the id to the second record (last write wins), so
`byBuildId[K] = R` fails for the first record. -/
theorem C4_duplicate_buildid_counterexample :
    (⟨"a.rpm", Option.none, Option.none, [(List.replicate 20 1, "/d.debug")]⟩
        : DebugInfoRPM)
      ∈ (indexBuild [⟨"x86_64", "s.src.rpm", "hello", "a.rpm",
            .DebugInfo [(List.replicate 20 1, "/d.debug")]⟩,
          ⟨"x86_64", "s.src.rpm", "hello", "b.rpm",
            .DebugInfo [(List.replicate 20 1, "/d.debug")]⟩]).debug_info_rpms
    ∧ List.replicate 20 1
      ∈ (⟨"a.rpm", Option.none, Option.none, [(List.replicate 20 1, "/d.debug")]⟩
          : DebugInfoRPM).build_id_to_path.map Prod.fst
    ∧ lookupA (List.replicate 20 1)
        (indexBuild [⟨"x86_64", "s.src.rpm", "hello", "a.rpm",
            .DebugInfo [(List.replicate 20 1, "/d.debug")]⟩,
          ⟨"x86_64", "s.src.rpm", "hello", "b.rpm",
            .DebugInfo [(List.replicate 20 1, "/d.debug")]⟩]).build_ids
      ≠ some (⟨"a.rpm", Option.none, Option.none,
          [(List.replicate 20 1, "/d.debug")]⟩ : DebugInfoRPM) := by
  refine ⟨by decide, by decide, by decide⟩

/-! ## The executable lookup (`Server::get_binary_rpm_for_build_id`,
lib.rs:325-341, duplicated as the `executable` route, main.rs:365-384) -/

/-- `DEBUG_INFO_PATH`. -/
def DEBUG_INFO_PATH : String := "/usr/lib/debug"

/-- `str::strip_suffix`: the string without the suffix, when it ends with
it. -/
def strip_suffix (s suf : String) : Option String :=
  if List.isSuffixOf suf.data s.data then
    some ⟨s.data.take (s.data.length - suf.data.length)⟩
  else Option.none

/-- `str::strip_prefix`: the string without the front piece, when it starts
with it. -/
def strip_front (s pre : String) : Option String :=
  if List.isPrefixOf pre.data s.data then some ⟨s.data.drop pre.data.length⟩
  else Option.none

/-- `Server::get_binary_rpm_for_build_id` (lib.rs:325-341).  The two
`.unwrap()` calls on the results of `strip_suffix(".debug")` and
`strip_prefix("/usr/lib/debug")` are modelled as `.error` (panic). -/
def get_binary_rpm_for_build_id (st : IndexState) (build_id : List Nat) :
    Except String (Option (String × String)) :=
  match lookupA build_id st.build_ids with
  | Option.none => .ok Option.none
  | some debug_info_rpm =>
    match lookupA build_id debug_info_rpm.build_id_to_path with
    | Option.none => .ok Option.none
    | some filename =>
      match strip_suffix filename ".debug" with
      | Option.none => .error "panicked at Option::unwrap on None"
      | some f1 =>
        match strip_front f1 DEBUG_INFO_PATH with
        | Option.none => .error "panicked at Option::unwrap on None"
        | some f2 =>
          match debug_info_rpm.binary_rpm_path with
          | Option.none => .ok Option.none
          | some binary_rpm_path => .ok (some (binary_rpm_path, f2))

/-- **C1 (code bug)**: on an ordinary record the lookup returns the binary
RPM with the derived path, and returns nothing when the record has no
binary sibling; but when the stored path for the build-id does not end in
`.debug` — exactly what the dwz probe stores, e.g.
`/usr/lib/debug/.dwz/hello.x86_64` — the `.unwrap()` panics instead of
returning nothing. -/
theorem C1_executable_panics_on_dwz_path :
    get_binary_rpm_for_build_id
      ⟨[⟨"hello-debuginfo.rpm", some "hello.rpm", Option.none,
          [(List.replicate 20 2, "/usr/lib/debug/usr/bin/hello.debug")]⟩],
        [(List.replicate 20 2,
          ⟨"hello-debuginfo.rpm", some "hello.rpm", Option.none,
            [(List.replicate 20 2, "/usr/lib/debug/usr/bin/hello.debug")]⟩)]⟩
      (List.replicate 20 2) = .ok (some ("hello.rpm", "/usr/bin/hello"))
    ∧ get_binary_rpm_for_build_id
      ⟨[⟨"hello-debuginfo.rpm", Option.none, Option.none,
          [(List.replicate 20 2, "/usr/lib/debug/usr/bin/hello.debug")]⟩],
        [(List.replicate 20 2,
          ⟨"hello-debuginfo.rpm", Option.none, Option.none,
            [(List.replicate 20 2, "/usr/lib/debug/usr/bin/hello.debug")]⟩)]⟩
      (List.replicate 20 2) = .ok Option.none
    ∧ get_binary_rpm_for_build_id
      ⟨[⟨"hello-debuginfo.rpm", some "hello.rpm", Option.none,
          [(List.replicate 20 2, "/usr/lib/debug/.dwz/hello.x86_64")]⟩],
        [(List.replicate 20 2,
          ⟨"hello-debuginfo.rpm", some "hello.rpm", Option.none,
            [(List.replicate 20 2, "/usr/lib/debug/.dwz/hello.x86_64")]⟩)]⟩
      (List.replicate 20 2) = .error "panicked at Option::unwrap on None" := by
  refine ⟨by decide, by decide, by decide⟩

/-! ## Path model and the analyzer's `.build-id` extraction
(`Server::analyze_file`, lib.rs:175-220) -/

/-- A filesystem-style path: absolute flag plus components.  The analyzer
theorem assumes well-formed entry paths (components are plain names), while
symlink targets may freely contain `.` and `..` components. -/
structure RPath where
  absolute : Bool
  comps : List String
  deriving DecidableEq

/-- `Path::starts_with`: component-wise prefix, on equal absoluteness. -/
def startsWithP (p base : RPath) : Bool :=
  p.absolute = base.absolute ∧ List.isPrefixOf base.comps p.comps

/-- `Path::parent`: drop the last component; `None` at a root. -/
def parentP (p : RPath) : Option RPath :=
  if p.comps.isEmpty then Option.none else some ⟨p.absolute, p.comps.dropLast⟩

/-- `Path::file_name`: the last component, or `None` when the path ends in
`..` (as in Rust). -/
def fileNameP (p : RPath) : Option String :=
  match p.comps.getLast? with
  | some c => if c = ".." then Option.none else some c
  | Option.none => Option.none

/-- Split a file name at its last dot, Rust-style: no dot, or only a
leading dot, means no extension. -/
def extSplit (cs : List Char) : List Char × Option (List Char) :=
  let revExt := cs.reverse.takeWhile (fun c => c ≠ '.')
  if revExt.length = cs.length then (cs, Option.none)
  else if revExt.length = cs.length - 1 then (cs, Option.none)
  else (cs.take (cs.length - revExt.length - 1), some revExt.reverse)

/-- `Path::extension` of a file name. -/
def fileExt (name : String) : Option String :=
  ((extSplit name.data).2).map (fun l => ⟨l⟩)

/-- `Path::file_stem` of a file name. -/
def fileStem (name : String) : String :=
  ⟨(extSplit name.data).1⟩

/-- `Path::extension` of a path. -/
def pathExt (p : RPath) : Option String :=
  (fileNameP p).bind fileExt

/-- `Path::file_stem` of a path. -/
def fileStemP (p : RPath) : Option String :=
  (fileNameP p).map fileStem

/-- `Path::join`: an absolute right side replaces the left side. -/
def joinP (p q : RPath) : RPath :=
  if q.absolute then q else ⟨p.absolute, p.comps ++ q.comps⟩

/-- The component collapse of `path_absolutize::Absolutize` on absolute
paths: `.` vanishes, `..` pops (staying at the root when empty). -/
def collapseComps (acc : List String) : List String → List String
  | [] => acc
  | c :: rest =>
    if c = "." then collapseComps acc rest
    else if c = ".." then collapseComps acc.dropLast rest
    else collapseComps (acc ++ [c]) rest

/-- `absolutize()` on an absolute path. -/
def absolutizeP (p : RPath) : RPath :=
  ⟨p.absolute, collapseComps [] p.comps⟩

/-- Render a path as the `to_str` string. -/
def renderP (p : RPath) : String :=
  if p.comps.isEmpty then "/"
  else ⟨(p.comps.map (fun c => '/' :: c.data)).flatten⟩

/-- `DEBUG_INFO_BUILD_ID_PATH` as a path. -/
def DEBUG_INFO_BUILD_ID_PATHP : RPath :=
  ⟨true, ["usr", "lib", "debug", ".build-id"]⟩

/-- One RPM-header file entry: its payload path and its symlink target. -/
structure FileEntry where
  path : RPath
  linkto : RPath
  deriving DecidableEq

/-- One iteration of the analyzer's entry loop (lib.rs:175-215), for a
debuginfo RPM, restricted to the `.build-id` branch: the `context(...)?`
failure points are modelled as `Except.error`, a failed strict hex decode
silently keeps the map unchanged. -/
def analyze_entry (m : List (List Nat × String)) (fe : FileEntry) :
    Except String (List (List Nat × String)) :=
  if startsWithP fe.path DEBUG_INFO_BUILD_ID_PATHP ∧ pathExt fe.path = some "debug" then
    match parentP fe.path with
    | Option.none => .error "parent must exist"
    | some par =>
      match fileNameP par with
      | Option.none => .error "direct name must exist"
      | some dirName =>
        match fileStemP fe.path with
        | Option.none => .error "file stem expected"
        | some stem =>
          match parse_build_id ((dirName ++ stem).data) with
          | .ok build_id =>
            match parentP fe.path with
            | Option.none => .error "filename must have a parent"
            | some par2 =>
              .ok (insertA build_id (renderP (absolutizeP (joinP par2 fe.linkto))) m)
          | .error _ => .ok m
  else .ok m

/-- The analyzer's whole `.build-id` scan over the header's file entries. -/
def analyze_entries (m : List (List Nat × String)) :
    List FileEntry → Except String (List (List Nat × String))
  | [] => .ok m
  | fe :: rest =>
    match analyze_entry m fe with
    | .ok m' => analyze_entries m' rest
    | .error e => .error e

/-- The claim's description of one entry, word for word: for an entry
under `/usr/lib/debug/.build-id/` with extension `.debug`, form the
candidate hex string as the parent directory's basename concatenated with
the file's stem, decode it strictly (skipping the entry on failure), and
store under that build-id the absolute path obtained by joining the link
target against the entry's parent directory and canonicalizing. -/
def spec_entry (m : List (List Nat × String)) (fe : FileEntry) :
    List (List Nat × String) :=
  if startsWithP fe.path DEBUG_INFO_BUILD_ID_PATHP ∧ pathExt fe.path = some "debug" then
    let candidate :=
      (fe.path.comps.dropLast.getLast?.getD "")
        ++ fileStem (fe.path.comps.getLast?.getD "")
    match parse_build_id candidate.data with
    | .ok k =>
      insertA k
        (renderP (absolutizeP
          (joinP ⟨fe.path.absolute, fe.path.comps.dropLast⟩ fe.linkto))) m
    | .error _ => m
  else m

/-- The claim's description of the whole scan. -/
def spec_scan (m : List (List Nat × String)) : List FileEntry → List (List Nat × String)
  | [] => m
  | fe :: rest => spec_scan (spec_entry m fe) rest

theorem analyze_entry_eq_spec (fe : FileEntry)
    (wf : ∀ c ∈ fe.path.comps, c ≠ "." ∧ c ≠ "..")
    (m : List (List Nat × String)) :
    analyze_entry m fe = .ok (spec_entry m fe) := by
  by_cases hg : startsWithP fe.path DEBUG_INFO_BUILD_ID_PATHP = true
      ∧ pathExt fe.path = some "debug"
  · obtain ⟨hsw, hext⟩ := hg
    have hne : fe.path.comps ≠ [] := by
      intro h0
      rw [pathExt, fileNameP, h0] at hext
      simp at hext
    obtain ⟨last, hlast⟩ : ∃ l, fe.path.comps.getLast? = some l := by
      cases hL : fe.path.comps.getLast? with
      | none => exact absurd (List.getLast?_eq_none_iff.mp hL) hne
      | some l => exact ⟨l, rfl⟩
    have hlastne : last ≠ ".." := (wf last (List.mem_of_mem_getLast? hlast)).2
    have hfn : fileNameP fe.path = some last := by
      simp [fileNameP, hlast, hlastne]
    have hext' : fileExt last = some "debug" := by
      rw [pathExt, hfn] at hext
      exact hext
    have hpar : parentP fe.path
        = some ⟨fe.path.absolute, fe.path.comps.dropLast⟩ := by
      rw [parentP, if_neg (by simpa [List.isEmpty_iff] using hne)]
    obtain ⟨habs, hpref⟩ := of_decide_eq_true hsw
    obtain ⟨t, ht⟩ := List.isPrefixOf_iff_prefix.mp hpref
    have htne : t ≠ [] := by
      intro h0
      rw [h0, List.append_nil] at ht
      have hl4 : last = ".build-id" := by
        rw [← ht] at hlast
        exact (by simpa [DEBUG_INFO_BUILD_ID_PATHP] using hlast : ".build-id" = last).symm
      rw [hl4] at hext'
      exact absurd hext' (by decide)
    have hdlne : fe.path.comps.dropLast ≠ [] := by
      rw [← ht, List.dropLast_append_of_ne_nil _ htne]
      simp [DEBUG_INFO_BUILD_ID_PATHP]
    obtain ⟨d, hd⟩ : ∃ x, fe.path.comps.dropLast.getLast? = some x := by
      cases hL : fe.path.comps.dropLast.getLast? with
      | none => exact absurd (List.getLast?_eq_none_iff.mp hL) hdlne
      | some x => exact ⟨x, rfl⟩
    have hdne : d ≠ ".." :=
      (wf d (List.dropLast_subset _ (List.mem_of_mem_getLast? hd))).2
    have hfnpar : fileNameP ⟨fe.path.absolute, fe.path.comps.dropLast⟩ = some d := by
      simp [fileNameP, hd, hdne]
    have hstem : fileStemP fe.path = some (fileStem last) := by
      rw [fileStemP, hfn]
      rfl
    simp only [analyze_entry, spec_entry, if_pos (⟨hsw, hext⟩ :
        startsWithP fe.path DEBUG_INFO_BUILD_ID_PATHP = true
          ∧ pathExt fe.path = some "debug"),
      hpar, hfnpar, hstem, hd, hlast, Option.getD_some]
    cases hparse : parse_build_id ((d ++ fileStem last).data) with
    | ok k => rfl
    | error e => rfl
  · simp only [analyze_entry, spec_entry, if_neg hg]

/-- **C8**: over well-formed header paths, the analyzer's `.build-id` scan
computes exactly the map described by the spec sentence: for each entry
under `/usr/lib/debug/.build-id/` with extension `.debug`, the candidate
hex string is the parent directory's basename concatenated with the file's
stem; a failed strict decode silently skips the entry; a successful one
stores the canonicalized join of the link target against the entry's
parent directory. -/
theorem C8_analyze_build_id_entries :
    ∀ (entries : List FileEntry) (m : List (List Nat × String)),
      (∀ fe ∈ entries, ∀ c ∈ fe.path.comps, c ≠ "." ∧ c ≠ "..") →
      analyze_entries m entries = .ok (spec_scan m entries) := by
  intro entries
  induction entries with
  | nil => intro m _; rfl
  | cons fe rest ih =>
    intro m hwf
    have hstep := analyze_entry_eq_spec fe (hwf fe (by simp)) m
    simp only [analyze_entries, hstep, spec_scan]
    exact ih (spec_entry m fe) (fun g hg => hwf g (by simp [hg]))

/-- Witness for C8: the scan of a single well-formed `.build-id` symlink
entry agrees with the spec's description of it. -/
theorem C8_analyze_build_id_entries_witness :
    analyze_entries []
        [⟨⟨true, ["usr", "lib", "debug", ".build-id", "ab",
            "cdef0123456789abcdef0123456789abcdef00.debug"]⟩,
          ⟨false, ["..", "..", "..", "..", "usr", "bin", "hello.debug"]⟩⟩]
      = .ok (spec_scan []
          [⟨⟨true, ["usr", "lib", "debug", ".build-id", "ab",
              "cdef0123456789abcdef0123456789abcdef00.debug"]⟩,
            ⟨false, ["..", "..", "..", "..", "usr", "bin", "hello.debug"]⟩⟩]) :=
  C8_analyze_build_id_entries
    [⟨⟨true, ["usr", "lib", "debug", ".build-id", "ab",
        "cdef0123456789abcdef0123456789abcdef00.debug"]⟩,
      ⟨false, ["..", "..", "..", "..", "usr", "bin", "hello.debug"]⟩⟩]
    [] (by decide)
